import Mathlib

/-!
Shallow embedding of `robotfashion/data/robotfashion.py`: the DF2 category
tables, the PASCAL-VOC-style annotation XML readers (`get_class_from_xml`,
`get_bbox_from_xml`, `extract_bb`, `load_label`), and the `RobotFashion`
dataset accessor (`__init__`, `__len__`, `__getitem__`, `load_data`,
`get_folders`).  Machine integers are modelled as `Int`/`Nat`; the float
`subset_ratio` is modelled as `ℚ` (the pixel coordinates and codes stored in
the returned tensors are small integers, which float32 represents exactly,
so tensor contents are modelled as `Int`/`Nat` and tensor shapes as list
lengths).
-/

namespace RobotFashionModel

/-- The `DF2` enum of the source: thirteen garment categories. -/
inductive DF2 where
  | short_sleeve_top
  | long_sleeve_top
  | short_sleeve_outwear
  | long_sleeve_outwear
  | vest
  | sling
  | shorts
  | trousers
  | skirt
  | short_sleeve_dress
  | long_sleeve_dress
  | vest_dress
  | sling_dress
deriving DecidableEq

/-- The integer code of each enum member (`DF2.<name>.value` in Python). -/
def DF2.value : DF2 → Nat
  | .short_sleeve_top => 1
  | .long_sleeve_top => 2
  | .short_sleeve_outwear => 3
  | .long_sleeve_outwear => 4
  | .vest => 5
  | .sling => 6
  | .shorts => 7
  | .trousers => 8
  | .skirt => 9
  | .short_sleeve_dress => 10
  | .long_sleeve_dress => 11
  | .vest_dress => 12
  | .sling_dress => 13

/-- The forward table `df2_enum_to_name` (a dict keyed by the enum, hence a
total function). -/
def df2_enum_to_name : DF2 → String
  | .short_sleeve_top => "short_sleeve_top"
  | .long_sleeve_top => "long_sleeve_top"
  | .short_sleeve_outwear => "short_sleeve_outwear"
  | .long_sleeve_outwear => "long_sleeve_outwear"
  | .vest => "vest"
  | .sling => "sling"
  | .shorts => "shorts"
  | .trousers => "trousers"
  | .skirt => "skirt"
  | .short_sleeve_dress => "short_sleeve_dress"
  | .long_sleeve_dress => "long_sleeve_dress"
  | .vest_dress => "vest_dress"
  | .sling_dress => "sling_dress"

/-- The reverse table `name_to_df2_enum`, in source order, with the source's
exact keys — including the key `"long_sleeve_dres"` as written on the line
for `DF2.long_sleeve_dress`.  Python dict lookup is modelled by
`List.lookup` (keys are distinct, so first-match is the dict lookup). -/
def name_to_df2_enum : List (String × DF2) :=
  [ ("short_sleeve_top", .short_sleeve_top)
  , ("long_sleeve_top", .long_sleeve_top)
  , ("short_sleeve_outwear", .short_sleeve_outwear)
  , ("long_sleeve_outwear", .long_sleeve_outwear)
  , ("vest", .vest)
  , ("sling", .sling)
  , ("shorts", .shorts)
  , ("trousers", .trousers)
  , ("skirt", .skirt)
  , ("short_sleeve_dress", .short_sleeve_dress)
  , ("long_sleeve_dres", .long_sleeve_dress)
  , ("vest_dress", .vest_dress)
  , ("sling_dress", .sling_dress)
  ]

/-- An XML element as `xml.etree.ElementTree` presents it to this code: a
tag, an optional text node, and a list of child elements in document
order. -/
inductive Element : Type where
  | mk : String → Option String → List Element → Element

/-- The element's tag. -/
def Element.tag : Element → String
  | .mk t _ _ => t

/-- The element's text (`None` when absent). -/
def Element.text : Element → Option String
  | .mk _ s _ => s

/-- The element's children in document order (iteration order of
`for child in element`). -/
def Element.children : Element → List Element
  | .mk _ _ c => c

/-- Python `int(s)` on the decimal strings of the annotation schema:
digits with an optional leading sign; anything else raises, modelled as
`none`. -/
def pyIntCore : List Char → Nat → Option Nat
  | [], acc => some acc
  | c :: cs, acc =>
      if c.isDigit then pyIntCore cs (acc * 10 + (c.toNat - 48)) else none

/-- Python `int(s)`: sign handling on top of `pyIntCore`. -/
def pyInt (s : String) : Option Int :=
  match s.data with
  | [] => none
  | '-' :: [] => none
  | '-' :: c :: cs => (pyIntCore (c :: cs) 0).map (fun n => -(n : Int))
  | '+' :: [] => none
  | '+' :: c :: cs => (pyIntCore (c :: cs) 0).map (fun n => (n : Int))
  | cs => (pyIntCore cs 0).map (fun n => (n : Int))

/-- `int(element.text)`: `int(None)` raises (`none`), otherwise parse. -/
def textInt (t : Option String) : Option Int :=
  t.bind pyInt

/-- The loop of `extract_bb`: walk the children of the `bndbox` element,
overwriting the accumulator for each child tagged `xmin`/`xmax`/`ymin`/
`ymax` (so a repeated tag keeps the last occurrence), raising (`.error`)
as soon as a matching child's text does not parse as an integer. -/
def extract_bb_loop :
    List Element → Int → Int → Int → Int → Except String (Int × Int × Int × Int)
  | [], xmin, xmax, ymin, ymax => .ok (xmin, xmax, ymin, ymax)
  | ch :: rest, xmin, xmax, ymin, ymax =>
      if ch.tag = "xmin" then
        match textInt ch.text with
        | some v => extract_bb_loop rest v xmax ymin ymax
        | none => .error "invalid literal for int()"
      else if ch.tag = "xmax" then
        match textInt ch.text with
        | some v => extract_bb_loop rest xmin v ymin ymax
        | none => .error "invalid literal for int()"
      else if ch.tag = "ymin" then
        match textInt ch.text with
        | some v => extract_bb_loop rest xmin xmax v ymax
        | none => .error "invalid literal for int()"
      else if ch.tag = "ymax" then
        match textInt ch.text with
        | some v => extract_bb_loop rest xmin xmax ymin v
        | none => .error "invalid literal for int()"
      else extract_bb_loop rest xmin xmax ymin ymax

/-- `extract_bb`: run the loop from the `-1` sentinels, then fail if any
coordinate is still negative; on success return `[xmin, xmax, ymin, ymax]`
in exactly that source order. -/
def extract_bb (xml_obj : Element) : Except String (List Int) :=
  match extract_bb_loop xml_obj.children (-1) (-1) (-1) (-1) with
  | .error e => .error e
  | .ok (xmin, xmax, ymin, ymax) =>
      if xmin < 0 ∨ xmax < 0 ∨ ymin < 0 ∨ ymax < 0 then
        .error "no xmin,xmax,ymin,ymax in xml"
      else .ok [xmin, xmax, ymin, ymax]

/-- The first child of `root` tagged `object` (the loop of
`get_class_from_xml` returns on the first such child). -/
def firstObject (root : Element) : Option Element :=
  root.children.find? (fun c => c.tag == "object")

/-- The element the nested loops of `get_bbox_from_xml` return on: the
first grandchild tagged `bndbox` among the children of the `object`
children of `root`, taken in document order.  Note the outer loop does
not stop at the first `object`: when an earlier `object` has no `bndbox`
child, a later `object` is consulted. -/
def firstBndbox (root : Element) : Option Element :=
  ((root.children.filter (fun c => c.tag == "object")).flatMap
    Element.children).find? (fun g => g.tag == "bndbox")

/-- The body `get_class_from_xml` runs on the first `object` child:
`child[0]` (IndexError when there are no children), then
`name_to_df2_enum[child[0].text].value` (KeyError when the text is `None`
or not a key). -/
def class_of_object (child : Element) : Except String Nat :=
  match child.children.head? with
  | none => .error "IndexError: child index out of range"
  | some clazz =>
      match clazz.text with
      | none => .error "KeyError: None"
      | some txt =>
          match List.lookup txt name_to_df2_enum with
          | some d => .ok d.value
          | none => .error "KeyError"

/-- `get_class_from_xml`. -/
def get_class_from_xml (root : Element) : Except String Nat :=
  match firstObject root with
  | some child => class_of_object child
  | none => .error "no name in xml"

/-- `get_bbox_from_xml`. -/
def get_bbox_from_xml (root : Element) : Except String (List Int) :=
  match firstBndbox root with
  | some bb => extract_bb bb
  | none => .error "no bounding box in xml"

/-- The annotation record `load_label` builds: `boxes` is the (1,4) array
(one row, `[xmin, xmax, ymin, ymax]`) and `labels` the (1,) array (one
class code); integer pixel coordinates and codes are exact in float32, so
the tensor contents are modelled as integers and the shapes as list
lengths. -/
structure LabelRecord where
  boxes : List (List Int)
  labels : List Nat
deriving DecidableEq

/-- `load_label` on the parsed annotation file: first the bounding box,
then the class code (the source fills `boxes` before `labels`); either
reader's exception propagates. -/
def load_label (x : Element) : Except String LabelRecord :=
  match get_bbox_from_xml x with
  | .error e => .error e
  | .ok bb =>
      match get_class_from_xml x with
      | .error e => .error e
      | .ok c => .ok ⟨[bb], [c]⟩

/-- The value `extract_bb`'s loop leaves in the accumulator slot of tag
`tg`, starting from `cur`: the last child tagged `tg` wins, and a child
tagged `tg` whose text does not parse poisons the slot (`none`). -/
def lastParsed (tg : String) : List Element → Int → Option Int
  | [], cur => some cur
  | ch :: rest, cur =>
      if ch.tag = tg then
        match textInt ch.text with
        | some v => lastParsed tg rest v
        | none => none
      else lastParsed tg rest cur

/-- Lexicographic order on code points, the order Python's `sorted` uses
on strings. -/
def charListLe : List Char → List Char → Bool
  | [], _ => true
  | _ :: _, [] => false
  | a :: as, b :: bs =>
      if a.toNat < b.toNat then true
      else if b.toNat < a.toNat then false
      else charListLe as bs

/-- `a <= b` on strings as Python compares file names. -/
def strLe (a b : String) : Bool := charListLe a.data b.data

/-- One directory entry as `os.listdir` plus `os.path.isfile` see it. -/
structure DirEntry where
  name : String
  isFile : Bool
deriving DecidableEq

/-- The sort key relation of `sorted(os.listdir(...))`. -/
def entryLe (a b : DirEntry) : Prop := strLe a.name b.name = true

instance : DecidableRel entryLe := fun a b =>
  inferInstanceAs (Decidable (strLe a.name b.name = true))

/-- `os.path.join` for the paths this code builds. -/
def pathJoin (a b : String) : String := a ++ "/" ++ b

/-- `sorted(os.listdir(dir))` followed by the `isfile` filter: sort the
entries by name, keep the plain files. -/
def sortedFileEntries (entries : List DirEntry) : List DirEntry :=
  (List.insertionSort entryLe entries).filter (fun e => e.isFile)

/-- The file names of a folder in the name-sorted order the listing
comprehension of `load_data` produces. -/
def sortedFileNames (entries : List DirEntry) : List String :=
  (sortedFileEntries entries).map (fun e => e.name)

/-- `RobotFashion.load_data`: list the `images` and `annotations`
subfolders in sorted order, build the path lists, and raise when the two
counts differ. -/
def load_data (data_dir : String) (imgs annos : List DirEntry) :
    Except String (List String × List String) :=
  let image_paths := (sortedFileNames imgs).map (pathJoin (pathJoin data_dir "images"))
  let label_paths := (sortedFileNames annos).map (pathJoin (pathJoin data_dir "annotations"))
  if image_paths.length ≠ label_paths.length then
    .error "length of images and labels doesn't match"
  else .ok (image_paths, label_paths)

/-- The filesystem as the accessor sees it: the verdict of the folder
structure check (`has_correct_folder_structure` lives in the `.util`
module outside this file's source, so only its boolean verdict is
modelled; downloading cannot change the modelled filesystem) and the
entries of each split's subfolders. -/
structure FS where
  root : String
  structureOk : Bool
  trainImages : List DirEntry
  trainAnnos : List DirEntry
  valImages : List DirEntry
  valAnnos : List DirEntry

/-- `RobotFashion.get_dataset_name()`. -/
def get_dataset_name : String := "robotfashion"

/-- `RobotFashion.get_data_folder_name()` (the f-string). -/
def get_data_folder_name : String := get_dataset_name ++ "_data_folder"

/-- `RobotFashion._get_root_data_folder()`. -/
def get_root_data_folder (fs : FS) : String :=
  pathJoin fs.root get_data_folder_name

/-- `RobotFashion.get_folders()`: the subfolder names with expected
fingerprints declared for the integrity check. -/
def get_folders : List (String × String) :=
  [ ("train", "369ba5f28b246d2903b8f686b18d4b89b668fa484c9baef55c1c8bc5b6f2a45e")
  , ("val", "369ba5f28b246d2903b8f686b18d4b89b668fa484c9baef55c1c8bc5b6f2a45e")
  , ("test", "369ba5f28b246d2903b8f686b18d4b89b668fa484c9baef55c1c8bc5b6f2a45e") ]

/-- `RobotFashion.train_mode`. -/
def train_mode : String := "train"

/-- `RobotFashion.val_mode`. -/
def val_mode : String := "val"

/-- `RobotFashion.test_mode`. -/
def test_mode : String := "test"

/-- `RobotFashion.modes`. -/
def modes : List String := [train_mode, val_mode, test_mode]

/-- The subfolder name `load_val_data` joins onto the data root. -/
def validation_folder : String := "validation"

/-- `RobotFashion.load_train_data`. -/
def load_train_data (fs : FS) : Except String (List String × List String) :=
  load_data (pathJoin (get_root_data_folder fs) "train") fs.trainImages fs.trainAnnos

/-- `RobotFashion.load_val_data`: note it reads the `validation`
subfolder, not the `val` of `get_folders`. -/
def load_val_data (fs : FS) : Except String (List String × List String) :=
  load_data (pathJoin (get_root_data_folder fs) validation_folder) fs.valImages fs.valAnnos

/-- `RobotFashion.load_test_data` raises `NotImplementedError`. -/
def load_test_data : Except String (List String × List String) :=
  .error "NotImplementedError: labels of test data are not published"

/-- The state a successfully constructed accessor holds. -/
structure Dataset where
  mode : String
  subset_ratio : ℚ
  image_paths : List String
  label_paths : List String

/-- `RobotFashion.__init__` in source order: folder-structure check first
(raising one way or the other when it fails — without downloading the
modelled filesystem cannot become valid), then the mode check, then the
subset-ratio check, then the split's `load_*_data`. -/
def rf_init (fs : FS) (mode : String) (download_if_missing : Bool)
    (subset_ratio : ℚ) : Except String Dataset :=
  if fs.structureOk = true then
    if mode ∈ modes then
      if subset_ratio ≤ 0 ∨ 1 < subset_ratio then
        .error "subset ratio needs to be in (0, 1]"
      else
        match (if mode = train_mode then load_train_data fs
               else if mode = val_mode then load_val_data fs
               else load_test_data) with
        | .error e => .error e
        | .ok p => .ok ⟨mode, subset_ratio, p.1, p.2⟩
    else .error ("mode " ++ mode ++ " should be one of ['train', 'val', 'test']")
  else if download_if_missing = false then
    .error "cannot find (valid) robotfashion data. Set download_if_missing=True to download dataset"
  else .error "Downloading and/or unzipping data failed"

/-- `RobotFashion.__len__`: `int(self.subset_ratio * n)`; the ratio is in
(0,1] after construction, so truncation is the floor. -/
def rf_len (d : Dataset) : Nat :=
  (⌊d.subset_ratio * (d.image_paths.length : ℚ)⌋).toNat

/-- The list accesses of `RobotFashion.__getitem__`: the image path and
annotation path at `index`, `none` for the IndexError past the end of
the stored lists. -/
def rf_getitem_paths (d : Dataset) (index : Nat) : Option (String × String) :=
  match d.image_paths[index]?, d.label_paths[index]? with
  | some ip, some lp => some (ip, lp)
  | _, _ => none

/-- `RobotFashion.__getitem__` at the annotation level: pick the paths at
`index`, read the annotation file (`files` maps a path to its parsed XML
root; image decoding is out of scope per the spec, so the image side
stays a path) and run `load_label` on it. -/
def retrieve (files : String → Option Element) (d : Dataset) (index : Nat) :
    Option (String × Except String LabelRecord) :=
  match rf_getitem_paths d index with
  | some (ip, lp) => (files lp).map (fun x => (ip, load_label x))
  | none => none

/-- Concrete elements used to evaluate the theorems: a well-formed
single-object annotation file (category "shorts", box `[10, 50, 20, 60]`). -/
def exWFbnd : Element :=
  .mk "bndbox" none
    [ .mk "xmin" (some "10") []
    , .mk "xmax" (some "50") []
    , .mk "ymin" (some "20") []
    , .mk "ymax" (some "60") [] ]

/-- The single `object` of the well-formed example file. -/
def exWFobj : Element :=
  .mk "object" none [.mk "name" (some "shorts") [], exWFbnd]

/-- The well-formed example file. -/
def exWF : Element := .mk "annotation" none [exWFobj]

/-- A two-object annotation file whose first `object` has no `bndbox`:
the second object carries the box `[5, 6, 7, 8]`. -/
def exTwoObj1 : Element := .mk "object" none [.mk "name" (some "shorts") []]

/-- Second object of the two-object file, with the only `bndbox`. -/
def exTwoObj2 : Element :=
  .mk "object" none
    [ .mk "name" (some "skirt") []
    , .mk "bndbox" none
        [ .mk "xmin" (some "5") []
        , .mk "xmax" (some "6") []
        , .mk "ymin" (some "7") []
        , .mk "ymax" (some "8") [] ] ]

/-- The two-object file itself. -/
def exTwoObj : Element := .mk "annotation" none [exTwoObj1, exTwoObj2]

/-- A concrete filesystem for evaluating the accessor theorems: valid
structure, two image/annotation pairs in `train` (listed out of order),
one pair in `validation`. -/
def exFS : FS :=
  { root := "r"
  , structureOk := true
  , trainImages := [⟨"b.jpg", true⟩, ⟨"a.jpg", true⟩]
  , trainAnnos := [⟨"b.xml", true⟩, ⟨"a.xml", true⟩]
  , valImages := [⟨"v.jpg", true⟩]
  , valAnnos := [⟨"v.xml", true⟩] }

/-- The dataset `rf_init exFS "train" _ 1` constructs. -/
def exTrainDS : Dataset :=
  { mode := "train"
  , subset_ratio := 1
  , image_paths :=
      [ "r/robotfashion_data_folder/train/images/a.jpg"
      , "r/robotfashion_data_folder/train/images/b.jpg" ]
  , label_paths :=
      [ "r/robotfashion_data_folder/train/annotations/a.xml"
      , "r/robotfashion_data_folder/train/annotations/b.xml" ] }

/-- The dataset `rf_init exFS "train" _ (1/2)` constructs. -/
def exHalfDS : Dataset :=
  { mode := "train"
  , subset_ratio := 1/2
  , image_paths := exTrainDS.image_paths
  , label_paths := exTrainDS.label_paths }

/-- A file-content map holding the well-formed example annotation at the
first train annotation path. -/
def exFiles : String → Option Element := fun p =>
  if p = "r/robotfashion_data_folder/train/annotations/a.xml" then some exWF
  else none

end RobotFashionModel

namespace RobotFashionModel

lemma extract_bb_loop_ok_iff (cs : List Element) :
    ∀ (a b c d va vb vc vd : Int),
    extract_bb_loop cs a b c d = .ok (va, vb, vc, vd) ↔
      (lastParsed "xmin" cs a = some va ∧ lastParsed "xmax" cs b = some vb
        ∧ lastParsed "ymin" cs c = some vc ∧ lastParsed "ymax" cs d = some vd) := by
  induction cs with
  | nil =>
      intro a b c d va vb vc vd
      simp [extract_bb_loop, lastParsed, Prod.ext_iff]
  | cons ch rest ih =>
      intro a b c d va vb vc vd
      by_cases h1 : ch.tag = "xmin"
      · cases htext : textInt ch.text with
        | some v => simp [extract_bb_loop, lastParsed, h1, htext, ih]
        | none => simp [extract_bb_loop, lastParsed, h1, htext]
      · by_cases h2 : ch.tag = "xmax"
        · cases htext : textInt ch.text with
          | some v => simp [extract_bb_loop, lastParsed, h1, h2, htext, ih]
          | none => simp [extract_bb_loop, lastParsed, h1, h2, htext]
        · by_cases h3 : ch.tag = "ymin"
          · cases htext : textInt ch.text with
            | some v => simp [extract_bb_loop, lastParsed, h1, h2, h3, htext, ih]
            | none => simp [extract_bb_loop, lastParsed, h1, h2, h3, htext]
          · by_cases h4 : ch.tag = "ymax"
            · cases htext : textInt ch.text with
              | some v => simp [extract_bb_loop, lastParsed, h1, h2, h3, h4, htext, ih]
              | none => simp [extract_bb_loop, lastParsed, h1, h2, h3, h4, htext]
            · simp [extract_bb_loop, lastParsed, h1, h2, h3, h4, ih]

lemma extract_bb_ok_iff (e : Element) (l : List Int) :
    extract_bb e = .ok l ↔
      ∃ va vb vc vd : Int,
        lastParsed "xmin" e.children (-1) = some va
        ∧ lastParsed "xmax" e.children (-1) = some vb
        ∧ lastParsed "ymin" e.children (-1) = some vc
        ∧ lastParsed "ymax" e.children (-1) = some vd
        ∧ 0 ≤ va ∧ 0 ≤ vb ∧ 0 ≤ vc ∧ 0 ≤ vd ∧ l = [va, vb, vc, vd] := by
  unfold extract_bb
  cases hloop : extract_bb_loop e.children (-1) (-1) (-1) (-1) with
  | error msg =>
      simp only [reduceCtorEq, false_iff]
      rintro ⟨va, vb, vc, vd, hva, hvb, hvc, hvd, -⟩
      rw [(extract_bb_loop_ok_iff e.children (-1) (-1) (-1) (-1) va vb vc vd).mpr
        ⟨hva, hvb, hvc, hvd⟩] at hloop
      exact Except.noConfusion hloop
  | ok t =>
      obtain ⟨va, vb, vc, vd⟩ := t
      have hlp := (extract_bb_loop_ok_iff e.children (-1) (-1) (-1) (-1) va vb vc vd).mp hloop
      by_cases hneg : va < 0 ∨ vb < 0 ∨ vc < 0 ∨ vd < 0
      · simp only [if_pos hneg, reduceCtorEq, false_iff]
        rintro ⟨wa, wb, wc, wd, hwa, hwb, hwc, hwd, ha, hb, hc, hd, -⟩
        rw [hlp.1] at hwa; rw [hlp.2.1] at hwb
        rw [hlp.2.2.1] at hwc; rw [hlp.2.2.2] at hwd
        cases hwa; cases hwb; cases hwc; cases hwd
        rcases hneg with h | h | h | h <;> omega
      · simp only [if_neg hneg]
        push_neg at hneg
        constructor
        · rintro h
          injection h with h
          exact ⟨va, vb, vc, vd, hlp.1, hlp.2.1, hlp.2.2.1, hlp.2.2.2,
            hneg.1, hneg.2.1, hneg.2.2.1, hneg.2.2.2, h.symm⟩
        · rintro ⟨wa, wb, wc, wd, hwa, hwb, hwc, hwd, -, -, -, -, rfl⟩
          rw [hlp.1] at hwa; rw [hlp.2.1] at hwb
          rw [hlp.2.2.1] at hwc; rw [hlp.2.2.2] at hwd
          cases hwa; cases hwb; cases hwc; cases hwd
          rfl

lemma extract_bb_isOk_iff (e : Element) :
    (∃ l, extract_bb e = .ok l) ↔
      ∀ tg ∈ (["xmin", "xmax", "ymin", "ymax"] : List String),
        ∃ v : Int, lastParsed tg e.children (-1) = some v ∧ 0 ≤ v := by
  constructor
  · rintro ⟨l, hl⟩
    rw [extract_bb_ok_iff] at hl
    obtain ⟨va, vb, vc, vd, hva, hvb, hvc, hvd, ha, hb, hc, hd, -⟩ := hl
    intro tg htg
    simp only [List.mem_cons, List.mem_singleton, List.not_mem_nil, or_false] at htg
    rcases htg with rfl | rfl | rfl | rfl
    · exact ⟨va, hva, ha⟩
    · exact ⟨vb, hvb, hb⟩
    · exact ⟨vc, hvc, hc⟩
    · exact ⟨vd, hvd, hd⟩
  · intro h
    obtain ⟨va, hva, ha⟩ := h "xmin" (by simp)
    obtain ⟨vb, hvb, hb⟩ := h "xmax" (by simp)
    obtain ⟨vc, hvc, hc⟩ := h "ymin" (by simp)
    obtain ⟨vd, hvd, hd⟩ := h "ymax" (by simp)
    exact ⟨[va, vb, vc, vd],
      (extract_bb_ok_iff e _).mpr ⟨va, vb, vc, vd, hva, hvb, hvc, hvd, ha, hb, hc, hd, rfl⟩⟩

/-- "The first `object`'s class name resolves": its first child exists and
that child's text is a key of the reverse category table. -/
def ClassOk (obj : Element) : Prop :=
  ∃ clazz, obj.children.head? = some clazz ∧
    ∃ nm cat, clazz.text = some nm ∧ List.lookup nm name_to_df2_enum = some cat

lemma class_of_object_ok_iff (obj : Element) :
    (∃ n, class_of_object obj = .ok n) ↔ ClassOk obj := by
  unfold class_of_object ClassOk
  cases hhd : obj.children.head? with
  | none => simp
  | some clazz =>
      simp only [Option.some.injEq, exists_eq_left']
      cases htxt : clazz.text with
      | none => simp
      | some nm =>
          simp only [Option.some.injEq, exists_eq_left']
          cases hlook : List.lookup nm name_to_df2_enum with
          | none => simp [hlook]
          | some cat => simp [hlook]

lemma get_class_ok_iff (x : Element) :
    (∃ n, get_class_from_xml x = .ok n) ↔
      ∃ obj, firstObject x = some obj ∧ ClassOk obj := by
  unfold get_class_from_xml
  cases hobj : firstObject x with
  | none => simp
  | some obj =>
      simp only [Option.some.injEq, exists_eq_left']
      exact class_of_object_ok_iff obj

lemma get_bbox_ok_iff (x : Element) :
    (∃ l, get_bbox_from_xml x = .ok l) ↔
      ∃ bb, firstBndbox x = some bb ∧ ∃ l, extract_bb bb = .ok l := by
  unfold get_bbox_from_xml
  cases hbb : firstBndbox x with
  | none => simp
  | some bb => simp

lemma load_label_ok_iff (x : Element) :
    (∃ r, load_label x = .ok r) ↔
      (∃ l, get_bbox_from_xml x = .ok l) ∧ (∃ n, get_class_from_xml x = .ok n) := by
  unfold load_label
  cases hb : get_bbox_from_xml x with
  | error e => simp
  | ok bb =>
      cases hc : get_class_from_xml x with
      | error e => simp
      | ok c => simp

lemma filter_cons_of_find? {p : Element → Bool} {l : List Element} {a : Element}
    (h : List.find? p l = some a) : ∃ t, l.filter p = a :: t := by
  induction l with
  | nil => simp at h
  | cons b l ih =>
      by_cases hb : p b
      · rw [List.find?_cons_of_pos _ hb] at h
        injection h with h
        subst h
        exact ⟨l.filter p, by rw [List.filter_cons_of_pos hb]⟩
      · rw [List.find?_cons_of_neg _ hb] at h
        obtain ⟨t, ht⟩ := ih h
        exact ⟨t, by rw [List.filter_cons_of_neg hb, ht]⟩

lemma charListLe_total : ∀ as bs : List Char,
    charListLe as bs = true ∨ charListLe bs as = true := by
  intro as
  induction as with
  | nil => intro bs; left; rfl
  | cons a as ih =>
      intro bs
      cases bs with
      | nil => right; rfl
      | cons b bs =>
          rcases Nat.lt_trichotomy a.toNat b.toNat with h | h | h
          · left; simp [charListLe, h]
          · have h1 : ¬ a.toNat < b.toNat := by omega
            have h2 : ¬ b.toNat < a.toNat := by omega
            rcases ih bs with hc | hc
            · left; simp [charListLe, h1, h2, hc]
            · right; simp [charListLe, h1, h2, hc]
          · right; simp [charListLe, h]

lemma charListLe_trans : ∀ as bs cs : List Char,
    charListLe as bs = true → charListLe bs cs = true →
    charListLe as cs = true := by
  intro as
  induction as with
  | nil => intro bs cs _ _; rfl
  | cons a as ih =>
      intro bs cs h1 h2
      cases bs with
      | nil => simp [charListLe] at h1
      | cons b bs =>
          cases cs with
          | nil => simp [charListLe] at h2
          | cons c cs =>
              rcases Nat.lt_trichotomy a.toNat b.toNat with hab | hab | hab
              · rcases Nat.lt_trichotomy b.toNat c.toNat with hbc | hbc | hbc
                · simp [charListLe, show a.toNat < c.toNat by omega]
                · simp [charListLe, show a.toNat < c.toNat by omega]
                · simp [charListLe, show ¬ b.toNat < c.toNat by omega, hbc] at h2
              · rcases Nat.lt_trichotomy b.toNat c.toNat with hbc | hbc | hbc
                · simp [charListLe, show a.toNat < c.toNat by omega]
                · have hac1 : ¬ a.toNat < c.toNat := by omega
                  have hac2 : ¬ c.toNat < a.toNat := by omega
                  simp only [charListLe, if_neg (show ¬ a.toNat < b.toNat by omega),
                    if_neg (show ¬ b.toNat < a.toNat by omega)] at h1
                  simp only [charListLe, if_neg (show ¬ b.toNat < c.toNat by omega),
                    if_neg (show ¬ c.toNat < b.toNat by omega)] at h2
                  simp only [charListLe, if_neg hac1, if_neg hac2]
                  exact ih bs cs h1 h2
                · simp [charListLe, show ¬ b.toNat < c.toNat by omega, hbc] at h2
              · simp [charListLe, show ¬ a.toNat < b.toNat by omega, hab] at h1

instance : IsTotal DirEntry entryLe :=
  ⟨fun a b => charListLe_total a.name.data b.name.data⟩

instance : IsTrans DirEntry entryLe :=
  ⟨fun a b c => charListLe_trans a.name.data b.name.data c.name.data⟩

lemma load_data_ok (data_dir : String) (imgs annos : List DirEntry)
    (hc : (sortedFileNames imgs).length = (sortedFileNames annos).length) :
    load_data data_dir imgs annos =
      .ok ((sortedFileNames imgs).map (pathJoin (pathJoin data_dir "images")),
           (sortedFileNames annos).map (pathJoin (pathJoin data_dir "annotations"))) := by
  unfold load_data
  rw [if_neg]
  simp [hc]

lemma load_data_lengths (data_dir : String) (imgs annos : List DirEntry)
    (p : List String × List String)
    (h : load_data data_dir imgs annos = .ok p) :
    p.1.length = p.2.length := by
  simp only [load_data] at h
  split at h
  · exact absurd h (by simp)
  · next hne =>
      injection h with h
      subst h
      simpa using not_ne_iff.mp hne

lemma mode_dispatch_lengths (fs : FS) (mode : String)
    (p : List String × List String)
    (h : (if mode = train_mode then load_train_data fs
          else if mode = val_mode then load_val_data fs
          else load_test_data) = .ok p) :
    p.1.length = p.2.length := by
  by_cases ht : mode = train_mode
  · rw [if_pos ht] at h
    exact load_data_lengths _ _ _ _ h
  · rw [if_neg ht] at h
    by_cases hv : mode = val_mode
    · rw [if_pos hv] at h
      exact load_data_lengths _ _ _ _ h
    · rw [if_neg hv] at h
      exact absurd h (by simp [load_test_data])

lemma rf_init_ratio_ok (fs : FS) (mode : String) (dl : Bool) (f : ℚ)
    (hok : fs.structureOk = true) (hm : mode ∈ modes)
    (h0 : 0 < f) (h1 : f ≤ 1) :
    rf_init fs mode dl f =
      match (if mode = train_mode then load_train_data fs
             else if mode = val_mode then load_val_data fs
             else load_test_data) with
      | .error e => .error e
      | .ok p => .ok ⟨mode, f, p.1, p.2⟩ := by
  unfold rf_init
  rw [if_pos hok, if_pos hm, if_neg]
  push_neg
  exact ⟨h0, h1⟩

lemma rf_init_props (fs : FS) (mode : String) (dl : Bool) (f : ℚ) (d : Dataset)
    (h : rf_init fs mode dl f = .ok d) :
    fs.structureOk = true ∧ mode ∈ modes ∧ 0 < f ∧ f ≤ 1
      ∧ d.mode = mode ∧ d.subset_ratio = f
      ∧ d.image_paths.length = d.label_paths.length := by
  unfold rf_init at h
  by_cases hok : fs.structureOk = true
  · rw [if_pos hok] at h
    by_cases hm : mode ∈ modes
    · rw [if_pos hm] at h
      by_cases hr : f ≤ 0 ∨ 1 < f
      · rw [if_pos hr] at h
        exact absurd h (by simp)
      · rw [if_neg hr] at h
        push_neg at hr
        cases hload : (if mode = train_mode then load_train_data fs
                       else if mode = val_mode then load_val_data fs
                       else load_test_data) with
        | error e => rw [hload] at h; exact absurd h (by simp)
        | ok p =>
            rw [hload] at h
            injection h with h
            subst h
            exact ⟨hok, hm, hr.1, hr.2, rfl, rfl,
              mode_dispatch_lengths fs mode p hload⟩
    · rw [if_neg hm] at h
      exact absurd h (by simp)
  · rw [if_neg hok] at h
    by_cases hd : dl = false
    · rw [if_pos hd] at h
      exact absurd h (by simp)
    · rw [if_neg hd] at h
      exact absurd h (by simp)

lemma rf_init_train_ok (fs : FS) (dl : Bool) (f : ℚ)
    (hok : fs.structureOk = true) (h0 : 0 < f) (h1 : f ≤ 1)
    (hc : (sortedFileNames fs.trainImages).length
            = (sortedFileNames fs.trainAnnos).length) :
    rf_init fs "train" dl f =
      .ok ⟨"train", f,
        (sortedFileNames fs.trainImages).map
          (pathJoin (pathJoin (pathJoin (get_root_data_folder fs) "train") "images")),
        (sortedFileNames fs.trainAnnos).map
          (pathJoin (pathJoin (pathJoin (get_root_data_folder fs) "train") "annotations"))⟩ := by
  rw [rf_init_ratio_ok fs "train" dl f hok (by simp [modes, train_mode]) h0 h1]
  rw [if_pos (show "train" = train_mode from rfl)]
  unfold load_train_data
  rw [load_data_ok _ _ _ hc]

lemma rf_init_val_ok (fs : FS) (dl : Bool) (f : ℚ)
    (hok : fs.structureOk = true) (h0 : 0 < f) (h1 : f ≤ 1)
    (hc : (sortedFileNames fs.valImages).length
            = (sortedFileNames fs.valAnnos).length) :
    rf_init fs "val" dl f =
      .ok ⟨"val", f,
        (sortedFileNames fs.valImages).map
          (pathJoin (pathJoin (pathJoin (get_root_data_folder fs) validation_folder) "images")),
        (sortedFileNames fs.valAnnos).map
          (pathJoin (pathJoin (pathJoin (get_root_data_folder fs) validation_folder) "annotations"))⟩ := by
  rw [rf_init_ratio_ok fs "val" dl f hok (by simp [modes, val_mode]) h0 h1]
  rw [if_neg (show ¬ "val" = train_mode by decide),
    if_pos (show "val" = val_mode from rfl)]
  unfold load_val_data
  rw [load_data_ok _ _ _ hc]

lemma rf_len_one (d : Dataset) (h : d.subset_ratio = 1) :
    rf_len d = d.image_paths.length := by
  unfold rf_len
  rw [h, one_mul, Int.floor_natCast, Int.toNat_natCast]

lemma rf_len_half (d : Dataset) (h : d.subset_ratio = 1/2) :
    rf_len d = d.image_paths.length / 2 := by
  unfold rf_len
  rw [h, Int.floor_toNat]
  have heq : (1/2 : ℚ) * (d.image_paths.length : ℚ)
      = ((d.image_paths.length : ℕ) : ℚ) / ((2 : ℕ) : ℚ) := by
    push_cast
    ring
  rw [heq, Rat.natFloor_natCast_div_natCast]

lemma rf_len_le (d : Dataset) (h1 : d.subset_ratio ≤ 1) :
    rf_len d ≤ d.image_paths.length := by
  unfold rf_len
  have hle : d.subset_ratio * (d.image_paths.length : ℚ) ≤ (d.image_paths.length : ℚ) :=
    mul_le_of_le_one_left (by positivity) h1
  calc (⌊d.subset_ratio * (d.image_paths.length : ℚ)⌋).toNat
      ≤ (⌊(d.image_paths.length : ℚ)⌋).toNat := by
        exact Int.toNat_le_toNat (Int.floor_le_floor hle)
    _ = d.image_paths.length := by rw [Int.floor_natCast, Int.toNat_natCast]

lemma sortedFileNames_perm (l : List DirEntry) :
    (sortedFileNames l).Perm ((l.filter (fun e => e.isFile)).map (fun e => e.name)) := by
  unfold sortedFileNames sortedFileEntries
  exact ((List.perm_insertionSort entryLe l).filter _).map _

lemma sortedFileNames_pairwise (l : List DirEntry) :
    List.Pairwise (fun a b : String => strLe a b = true) (sortedFileNames l) := by
  unfold sortedFileNames sortedFileEntries
  rw [List.pairwise_map]
  exact (List.sorted_insertionSort entryLe l).filter (fun e => e.isFile)

lemma sortedFileNames_length (l : List DirEntry) :
    (sortedFileNames l).length = (l.filter (fun e => e.isFile)).length := by
  rw [(sortedFileNames_perm l).length_eq, List.length_map]

lemma load_data_ok_inv (data_dir : String) (imgs annos : List DirEntry)
    (ips lps : List String)
    (h : load_data data_dir imgs annos = .ok (ips, lps)) :
    ips = (sortedFileNames imgs).map (pathJoin (pathJoin data_dir "images"))
    ∧ lps = (sortedFileNames annos).map (pathJoin (pathJoin data_dir "annotations"))
    ∧ ips.length = lps.length := by
  simp only [load_data] at h
  split at h
  · exact absurd h (by simp)
  · next hne =>
      injection h with h
      injection h with ha hb
      subst ha
      subst hb
      simpa using not_ne_iff.mp hne

lemma lastParsed_of_filter_nil (tg : String) :
    ∀ (cs : List Element) (cur : Int),
    cs.filter (fun e => e.tag == tg) = [] → lastParsed tg cs cur = some cur := by
  intro cs
  induction cs with
  | nil => intro cur _; rfl
  | cons ch rest ih =>
      intro cur hf
      by_cases htag : ch.tag = tg
      · simp [List.filter_cons, htag] at hf
      · have hbeq : (ch.tag == tg) = false := by simp [htag]
        rw [List.filter_cons, hbeq] at hf
        simp only [Bool.false_eq_true, if_false] at hf
        simp only [lastParsed, if_neg htag]
        exact ih cur hf

/-- "The `bndbox` has exactly one child tagged `tg`, and its text is the
integer `v`" — the shape C1 assumes of a well-formed coordinate. -/
def coordUnique (bb : Element) (tg : String) (v : Int) : Prop :=
  (bb.children.filter (fun e => e.tag == tg)).map (fun e => textInt e.text) = [some v]

lemma lastParsed_of_coordUnique (tg : String) (v : Int) :
    ∀ (cs : List Element) (cur : Int),
    (cs.filter (fun e => e.tag == tg)).map (fun e => textInt e.text) = [some v] →
    lastParsed tg cs cur = some v := by
  intro cs
  induction cs with
  | nil => intro cur h; simp at h
  | cons ch rest ih =>
      intro cur h
      by_cases htag : ch.tag = tg
      · have hbeq : (ch.tag == tg) = true := by simp [htag]
        rw [List.filter_cons, hbeq] at h
        simp only [if_true, List.map_cons, List.cons.injEq] at h
        obtain ⟨h1, h2⟩ := h
        have hnil : rest.filter (fun e => e.tag == tg) = [] := by
          cases hf : rest.filter (fun e => e.tag == tg) with
          | nil => rfl
          | cons y ys => rw [hf] at h2; simp at h2
        simp only [lastParsed, if_pos htag, h1]
        exact lastParsed_of_filter_nil tg rest v hnil
      · have hbeq : (ch.tag == tg) = false := by simp [htag]
        rw [List.filter_cons, hbeq] at h
        simp only [Bool.false_eq_true, if_false] at h
        simp only [lastParsed, if_neg htag]
        exact ih cur h

lemma find?_of_filter_cons {p : Element → Bool} {l : List Element}
    {a : Element} {t : List Element}
    (h : l.filter p = a :: t) : l.find? p = some a := by
  induction l with
  | nil => simp at h
  | cons b l ih =>
      by_cases hb : p b
      · rw [List.filter_cons_of_pos hb] at h
        injection h with h1 h2
        subst h1
        rw [List.find?_cons_of_pos _ hb]
      · rw [List.filter_cons_of_neg hb] at h
        rw [List.find?_cons_of_neg _ hb]
        exact ih h

/-- C1's notion of a well-formed annotation file: exactly one `object`
element; its first child exists and carries the category name `nm`; `nm`
is a key of the reverse table with value `cat`; the object has a
`bndbox` child (first such is `bb`) holding exactly one `xmin`, `xmax`,
`ymin` and `ymax` child, with non-negative integer texts. -/
def WellFormedAnno (x obj bb : Element) (nm : String) (cat : DF2)
    (va vb vc vd : Int) : Prop :=
  x.children.filter (fun e => e.tag == "object") = [obj]
  ∧ (∃ clazz, obj.children.head? = some clazz ∧ clazz.text = some nm)
  ∧ List.lookup nm name_to_df2_enum = some cat
  ∧ obj.children.find? (fun e => e.tag == "bndbox") = some bb
  ∧ coordUnique bb "xmin" va ∧ coordUnique bb "xmax" vb
  ∧ coordUnique bb "ymin" vc ∧ coordUnique bb "ymax" vd
  ∧ 0 ≤ va ∧ 0 ≤ vb ∧ 0 ≤ vc ∧ 0 ≤ vd

lemma extract_bb_of_wf (bb : Element) (va vb vc vd : Int)
    (ha : coordUnique bb "xmin" va) (hb : coordUnique bb "xmax" vb)
    (hc : coordUnique bb "ymin" vc) (hd : coordUnique bb "ymax" vd)
    (h0a : 0 ≤ va) (h0b : 0 ≤ vb) (h0c : 0 ≤ vc) (h0d : 0 ≤ vd) :
    extract_bb bb = .ok [va, vb, vc, vd] := by
  unfold extract_bb
  rw [(extract_bb_loop_ok_iff bb.children (-1) (-1) (-1) (-1) va vb vc vd).mpr
    ⟨lastParsed_of_coordUnique _ _ _ _ ha, lastParsed_of_coordUnique _ _ _ _ hb,
      lastParsed_of_coordUnique _ _ _ _ hc, lastParsed_of_coordUnique _ _ _ _ hd⟩]
  show (if va < 0 ∨ vb < 0 ∨ vc < 0 ∨ vd < 0 then
          Except.error "no xmin,xmax,ymin,ymax in xml"
        else Except.ok [va, vb, vc, vd]) = Except.ok [va, vb, vc, vd]
  rw [if_neg]
  rintro (h | h | h | h) <;> omega

lemma load_label_of_wf (x obj bb : Element) (nm : String) (cat : DF2)
    (va vb vc vd : Int)
    (hwf : WellFormedAnno x obj bb nm cat va vb vc vd) :
    load_label x = .ok ⟨[[va, vb, vc, vd]], [cat.value]⟩ := by
  obtain ⟨hfil, ⟨clazz, hhd, htxt⟩, hlook, hbb, ha, hb, hc, hd, h0a, h0b, h0c, h0d⟩ := hwf
  have hobj : firstObject x = some obj := find?_of_filter_cons hfil
  have hclass : get_class_from_xml x = .ok cat.value := by
    unfold get_class_from_xml
    rw [hobj]
    simp only [class_of_object, hhd, htxt, hlook]
  have hbbox : get_bbox_from_xml x = .ok [va, vb, vc, vd] := by
    unfold get_bbox_from_xml firstBndbox
    rw [hfil, List.flatMap_cons, List.flatMap_nil, List.append_nil, hbb]
    exact extract_bb_of_wf bb va vb vc vd ha hb hc hd h0a h0b h0c h0d
  simp only [load_label, hbbox, hclass]

end RobotFashionModel

namespace RobotFashionModel

/-- C2 — corrected. -/
theorem c2_counterexample :
    ¬ (List.lookup (df2_enum_to_name DF2.long_sleeve_dress) name_to_df2_enum
        = some DF2.long_sleeve_dress) := by
  decide

/-- C2 (amended): the round trip `name_to_df2_enum[df2_enum_to_name[c]] = c`
holds for every category except `long_sleeve_dress`, whose canonical name is
absent from the reverse table; every category's code is stable in 1..13. -/
theorem c2_bidirectional_lookup (c : DF2) :
    (List.lookup (df2_enum_to_name c) name_to_df2_enum
      = if c = DF2.long_sleeve_dress then none else some c)
    ∧ 1 ≤ c.value ∧ c.value ≤ 13 := by
  cases c <;> exact ⟨by decide, by decide, by decide⟩

/-- C3 — counterexample to the claim as stated: the reverse table has no key
`"short_sleeve_dres"` at all, and the `short_sleeve_dress` entry is spelled
correctly and agrees with the forward table. -/
theorem c3_counterexample :
    List.lookup "short_sleeve_dres" name_to_df2_enum = none
    ∧ List.lookup (df2_enum_to_name DF2.short_sleeve_dress) name_to_df2_enum
        = some DF2.short_sleeve_dress := by
  decide

/-- C3 (amended): the key with the final "s" missing is
`"long_sleeve_dres"`, and it is the entry for `long_sleeve_dress`; the
forward and reverse maps disagree exactly on the `long_sleeve_dress`
entry (its canonical name is absent from the reverse table, every other
category's canonical name maps back to itself). -/
theorem c3_misspelled_key (c : DF2) :
    List.lookup "long_sleeve_dres" name_to_df2_enum = some DF2.long_sleeve_dress
    ∧ df2_enum_to_name DF2.long_sleeve_dress = "long_sleeve_dress"
    ∧ List.lookup "long_sleeve_dress" name_to_df2_enum = none
    ∧ (List.lookup (df2_enum_to_name c) name_to_df2_enum
        = if c = DF2.long_sleeve_dress then none else some c) := by
  refine ⟨by decide, by decide, by decide, ?_⟩
  cases c <;> decide

/-- C7 (confirmed): reading an annotation file succeeds exactly when the
file is well formed for the source's readers: there is an `object`
element, the first `object`'s first child's text is a recognized category
key, a `bndbox` element exists (where the box loop looks), and each of
its `xmin`/`xmax`/`ymin`/`ymax` slots ends up holding a non-negative
integer (a missing child leaves the `-1` sentinel, a negative or
unparsable text also fails); in every other case one of the readers
raises. -/
theorem c7_parse_error_iff (x : Element) :
    (∃ r, load_label x = .ok r) ↔
      ((∃ obj, firstObject x = some obj ∧ ClassOk obj)
        ∧ ∃ bb, firstBndbox x = some bb ∧
            ∀ tg ∈ (["xmin", "xmax", "ymin", "ymax"] : List String),
              ∃ v : Int, lastParsed tg bb.children (-1) = some v ∧ 0 ≤ v) := by
  rw [load_label_ok_iff, get_class_ok_iff, get_bbox_ok_iff, and_comm]
  constructor
  · rintro ⟨hclass, bb, hbb, hex⟩
    exact ⟨hclass, bb, hbb, (extract_bb_isOk_iff bb).mp hex⟩
  · rintro ⟨hclass, bb, hbb, hall⟩
    exact ⟨hclass, bb, hbb, (extract_bb_isOk_iff bb).mpr hall⟩

/-- C7 witness: the concrete well-formed file parses. -/
theorem c7_witness : ∃ r, load_label exWF = .ok r :=
  (c7_parse_error_iff exWF).mpr
    ⟨⟨exWFobj, rfl, .mk "name" (some "shorts") [], rfl, "shorts", DF2.shorts, rfl, rfl⟩,
      exWFbnd, rfl, by
        intro tg htg
        fin_cases htg
        · exact ⟨10, rfl, by decide⟩
        · exact ⟨50, rfl, by decide⟩
        · exact ⟨20, rfl, by decide⟩
        · exact ⟨60, rfl, by decide⟩⟩

/-- C6 — counterexample to the claim as stated: in `exTwoObj` the first
`object` has no `bndbox` child, yet `get_bbox_from_xml` succeeds with the
box `[5, 6, 7, 8]` read from the second `object`, so an element of a
later `object` is used. -/
theorem c6_counterexample :
    firstObject exTwoObj = some exTwoObj1
    ∧ exTwoObj1.children.find? (fun g => g.tag == "bndbox") = none
    ∧ get_bbox_from_xml exTwoObj = .ok [5, 6, 7, 8] :=
  ⟨rfl, rfl, rfl⟩

/-- C6 (amended): the class code is always read from the first `object`
element; the bounding box is read from the first `bndbox` grandchild in
document order across all `object` elements, so it too comes from the
first `object` whenever that object has a `bndbox` child — a later
`object`'s `bndbox` is consulted only when every earlier `object` lacks
one. -/
theorem c6_first_object_used (root obj : Element)
    (h : firstObject root = some obj) :
    get_class_from_xml root = class_of_object obj
    ∧ ∀ bb, obj.children.find? (fun g => g.tag == "bndbox") = some bb →
        get_bbox_from_xml root = extract_bb bb := by
  constructor
  · unfold get_class_from_xml
    rw [h]
  · intro bb hbb
    obtain ⟨t, ht⟩ := filter_cons_of_find? h
    unfold get_bbox_from_xml firstBndbox
    rw [ht, List.flatMap_cons, List.find?_append, hbb, Option.or_some]

/-- C6 witness: on the concrete single-object file both readers use the
first (only) `object`. -/
theorem c6_first_object_used_witness :
    get_class_from_xml exWF = class_of_object exWFobj
    ∧ get_bbox_from_xml exWF = extract_bb exWFbnd :=
  ⟨(c6_first_object_used exWF exWFobj rfl).1,
    (c6_first_object_used exWF exWFobj rfl).2 exWFbnd rfl⟩

/-- C4 — counterexample to the claim as stated: even on a filesystem that
passes the integrity check, the split selector `"validation"` raises the
bad-split configuration error (the supported selectors are
`["train", "val", "test"]`). -/
theorem c4_counterexample :
    rf_init exFS "validation" false 1
      = .error "mode validation should be one of ['train', 'val', 'test']" :=
  rfl

/-- C4 (amended): the supported split selector for the validation data is
`"val"`; with it (integrity check passed, ratio in (0,1], matching file
counts) construction succeeds and indexes the `validation` subfolder
under the dataset root, while the selector `"validation"` raises the
bad-split configuration error. -/
theorem c4_val_selector (fs : FS) (dl : Bool) (f : ℚ)
    (hok : fs.structureOk = true) (h0 : 0 < f) (h1 : f ≤ 1)
    (hc : (sortedFileNames fs.valImages).length
            = (sortedFileNames fs.valAnnos).length) :
    rf_init fs "validation" dl f
      = .error "mode validation should be one of ['train', 'val', 'test']"
    ∧ rf_init fs "val" dl f =
        .ok ⟨"val", f,
          (sortedFileNames fs.valImages).map
            (pathJoin (pathJoin (pathJoin (get_root_data_folder fs) validation_folder) "images")),
          (sortedFileNames fs.valAnnos).map
            (pathJoin (pathJoin (pathJoin (get_root_data_folder fs) validation_folder) "annotations"))⟩ := by
  constructor
  · unfold rf_init
    rw [if_pos hok, if_neg (by decide : ¬ "validation" ∈ modes)]
    rfl
  · exact rf_init_val_ok fs dl f hok h0 h1 hc

/-- C4 witness: the concrete filesystem, ratio 1. -/
theorem c4_val_selector_witness :
    rf_init exFS "validation" false 1
      = .error "mode validation should be one of ['train', 'val', 'test']"
    ∧ rf_init exFS "val" false 1 =
        .ok ⟨"val", 1,
          ["r/robotfashion_data_folder/validation/images/v.jpg"],
          ["r/robotfashion_data_folder/validation/annotations/v.xml"]⟩ :=
  c4_val_selector exFS false 1 rfl zero_lt_one (le_refl 1) rfl

/-- C5 (confirmed): the reported length of a constructed accessor is
`floor(subset_ratio * n)` over the `n` matched pairs it holds — in
particular `n` itself at ratio 1 and `n / 2` at ratio `1/2`.  (The float
ratio is modelled as an exact rational; construction guarantees the
ratio is in (0,1], so Python's `int` truncation is the floor.) -/
theorem c5_reported_length (fs : FS) (mode : String) (dl : Bool) (f : ℚ)
    (d : Dataset) (h : rf_init fs mode dl f = .ok d) :
    rf_len d = (⌊f * (d.image_paths.length : ℚ)⌋).toNat
    ∧ (f = 1 → rf_len d = d.image_paths.length)
    ∧ (f = 1/2 → rf_len d = d.image_paths.length / 2) := by
  obtain ⟨-, -, -, -, -, hsr, -⟩ := rf_init_props fs mode dl f d h
  refine ⟨?_, ?_, ?_⟩
  · unfold rf_len
    rw [hsr]
  · intro hf
    exact rf_len_one d (hsr.trans hf)
  · intro hf
    exact rf_len_half d (hsr.trans hf)

/-- C5 witness: two matched pairs at ratio 1 report length 2. -/
theorem c5_reported_length_witness : rf_len exTrainDS = 2 :=
  (c5_reported_length exFS "train" false 1 exTrainDS
    (rf_init_train_ok exFS false 1 rfl zero_lt_one (le_refl 1) rfl)).2.1 rfl

/-- C8 (confirmed): `load_data` succeeds exactly when the two subfolders
hold the same number of files; on success the image and annotation path
lists are the name-sorted listings of the `images` and `annotations`
subfolders (sorted by code-point order, a permutation of the raw file
listings), paired positionally — the i-th image path with the i-th
annotation path — and of equal length. -/
theorem c8_sorted_positional_pairing (data_dir : String)
    (imgs annos : List DirEntry) :
    ((∃ r, load_data data_dir imgs annos = .ok r) ↔
        (imgs.filter (fun e => e.isFile)).length
          = (annos.filter (fun e => e.isFile)).length)
    ∧ ∀ ips lps, load_data data_dir imgs annos = .ok (ips, lps) →
        ips = (sortedFileNames imgs).map (pathJoin (pathJoin data_dir "images"))
        ∧ lps = (sortedFileNames annos).map (pathJoin (pathJoin data_dir "annotations"))
        ∧ List.Pairwise (fun a b : String => strLe a b = true) (sortedFileNames imgs)
        ∧ List.Pairwise (fun a b : String => strLe a b = true) (sortedFileNames annos)
        ∧ (sortedFileNames imgs).Perm
            ((imgs.filter (fun e => e.isFile)).map (fun e => e.name))
        ∧ (sortedFileNames annos).Perm
            ((annos.filter (fun e => e.isFile)).map (fun e => e.name))
        ∧ ips.length = lps.length := by
  constructor
  · constructor
    · rintro ⟨⟨ips, lps⟩, hr⟩
      have hlen := (load_data_ok_inv data_dir imgs annos ips lps hr).2.2
      obtain ⟨h1, h2, -⟩ := load_data_ok_inv data_dir imgs annos ips lps hr
      rw [h1, h2, List.length_map, List.length_map,
        sortedFileNames_length, sortedFileNames_length] at hlen
      exact hlen
    · intro hcnt
      refine ⟨_, load_data_ok data_dir imgs annos ?_⟩
      rw [sortedFileNames_length, sortedFileNames_length]
      exact hcnt
  · intro ips lps hr
    obtain ⟨h1, h2, h3⟩ := load_data_ok_inv data_dir imgs annos ips lps hr
    exact ⟨h1, h2, sortedFileNames_pairwise imgs, sortedFileNames_pairwise annos,
      sortedFileNames_perm imgs, sortedFileNames_perm annos, h3⟩

/-- C8 witness: a concrete out-of-order listing is paired sorted. -/
theorem c8_sorted_positional_pairing_witness :
    (∃ r, load_data "d" [⟨"b.jpg", true⟩, ⟨"a.jpg", true⟩]
            [⟨"b.xml", true⟩, ⟨"a.xml", true⟩] = .ok r)
    ∧ ["d/images/a.jpg", "d/images/b.jpg"]
        = (sortedFileNames [⟨"b.jpg", true⟩, ⟨"a.jpg", true⟩]).map
            (pathJoin (pathJoin "d" "images")) :=
  ⟨(c8_sorted_positional_pairing "d" _ _).1.mpr rfl,
    ((c8_sorted_positional_pairing "d"
        [⟨"b.jpg", true⟩, ⟨"a.jpg", true⟩] [⟨"b.xml", true⟩, ⟨"a.xml", true⟩]).2
      ["d/images/a.jpg", "d/images/b.jpg"]
      ["d/annotations/a.xml", "d/annotations/b.xml"] rfl).1⟩

/-- C9 (confirmed): the subset cap changes only the reported length, not
the stored path lists — for any constructed accessor with ratio below 1,
every index from the reported length up to the full pair count still
retrieves the i-th sorted image/annotation pair. -/
theorem c9_subset_cap_not_enforced (fs : FS) (mode : String) (dl : Bool)
    (f : ℚ) (d : Dataset) (i : Nat)
    (h : rf_init fs mode dl f = .ok d) (hf : f < 1)
    (hge : rf_len d ≤ i) (hlt : i < d.image_paths.length) :
    ∃ ip lp, d.image_paths[i]? = some ip ∧ d.label_paths[i]? = some lp
      ∧ rf_getitem_paths d i = some (ip, lp) := by
  obtain ⟨-, -, -, -, -, -, hlen⟩ := rf_init_props fs mode dl f d h
  have hlt2 : i < d.label_paths.length := hlen ▸ hlt
  refine ⟨d.image_paths.get ⟨i, hlt⟩, d.label_paths.get ⟨i, hlt2⟩, ?_, ?_, ?_⟩
  · simp [List.getElem?_eq_getElem hlt]
  · simp [List.getElem?_eq_getElem hlt2]
  · unfold rf_getitem_paths
    rw [List.getElem?_eq_getElem hlt, List.getElem?_eq_getElem hlt2]
    rfl

/-- C9 witness: ratio 1/2 over two pairs reports length 1, yet index 1
still retrieves the second pair. -/
theorem c9_subset_cap_not_enforced_witness :
    ∃ ip lp, exHalfDS.image_paths[1]? = some ip
      ∧ exHalfDS.label_paths[1]? = some lp
      ∧ rf_getitem_paths exHalfDS 1 = some (ip, lp) :=
  c9_subset_cap_not_enforced exFS "train" false (1/2) exHalfDS 1
    (rf_init_train_ok exFS false (1/2) rfl (by norm_num) (by norm_num) rfl)
    (by norm_num)
    (le_of_eq (rf_len_half exHalfDS rfl))
    (by decide)

/-- C10 (confirmed): the integrity check is declared over exactly the
subfolders `train`, `val` and `test`, while validation-mode loading reads
the subfolder named `validation` — which is therefore never among the
integrity-checked folders. -/
theorem c10_validation_folder_unchecked :
    get_folders.map Prod.fst = ["train", "val", "test"]
    ∧ validation_folder = "validation"
    ∧ validation_folder ∉ get_folders.map Prod.fst := by
  exact ⟨rfl, rfl, by decide⟩

/-- C1 (confirmed): for an in-range index `i` of a constructed accessor
whose `i`-th annotation file is well formed, retrieval returns the record
whose `boxes` field is the single row `[xmin, xmax, ymin, ymax]` read
from that file and whose `labels` field is the single entry holding that
category's code. -/
theorem c1_retrieval_matches_annotation (fs : FS) (mode : String) (dl : Bool)
    (f : ℚ) (d : Dataset) (i : Nat) (files : String → Option Element)
    (x obj bb : Element) (nm lp : String) (cat : DF2) (va vb vc vd : Int)
    (h : rf_init fs mode dl f = .ok d)
    (hi : i < rf_len d)
    (hlp : d.label_paths[i]? = some lp)
    (hfile : files lp = some x)
    (hwf : WellFormedAnno x obj bb nm cat va vb vc vd) :
    ∃ ip, retrieve files d i
      = some (ip, .ok ⟨[[va, vb, vc, vd]], [cat.value]⟩) := by
  obtain ⟨-, -, -, h1, -, hsr, -⟩ := rf_init_props fs mode dl f d h
  have hile : i < d.image_paths.length :=
    lt_of_lt_of_le hi (rf_len_le d (by rw [hsr]; exact h1))
  refine ⟨d.image_paths.get ⟨i, hile⟩, ?_⟩
  unfold retrieve rf_getitem_paths
  rw [List.getElem?_eq_getElem hile, hlp]
  show (files lp).map _ = _
  rw [hfile]
  show some (_, load_label x) = _
  rw [load_label_of_wf x obj bb nm cat va vb vc vd hwf]
  rfl

/-- C1 witness: retrieving index 0 of the concrete accessor built at
ratio 1 over `exFS`, with the well-formed file at the first annotation
path, yields boxes `[[10, 50, 20, 60]]` and labels `[7]` (code of
"shorts"). -/
theorem c1_retrieval_matches_annotation_witness :
    ∃ ip, retrieve exFiles exTrainDS 0
      = some (ip, .ok ⟨[[10, 50, 20, 60]], [7]⟩) :=
  c1_retrieval_matches_annotation exFS "train" false 1 exTrainDS 0 exFiles
    exWF exWFobj exWFbnd "shorts"
    "r/robotfashion_data_folder/train/annotations/a.xml"
    DF2.shorts 10 50 20 60
    (rf_init_train_ok exFS false 1 rfl zero_lt_one (le_refl 1) rfl)
    (by rw [rf_len_one exTrainDS rfl]; decide)
    rfl rfl
    ⟨rfl, ⟨Element.mk "name" (some "shorts") [], rfl, rfl⟩, rfl, rfl,
      rfl, rfl, rfl, rfl, by decide, by decide, by decide, by decide⟩

end RobotFashionModel
